import Mathlib

/-!
# Verification of the WorktreeNode lazy paginated log cache

Shallow embedding of `src/src/webviews/home/protocol.ts` (`WorktreeNode`):
the lazy, paginated log cache backing each worktree tree node, its
`getChildren` / `loadMore` / `refresh` entry points, and the concurrency
behaviour of `getLog` decomposed at its `await` suspension point.

History entries, log windows and the history source are modelled as plain
data; instrumentation counters (`fetchCount`, `contFetchCount`,
`changeCount`) record how many times the node invoked the source's initial
fetch, invoked a continuation fetch, and emitted a structural-change
notification (`triggerChange(false)`).
-/

namespace Worktree

/-- One history entry (a commit): an identity and the day of its
timestamp (the only part of the timestamp date-boundary markers use). -/
structure Entry where
  id : Nat
  day : Nat
deriving DecidableEq, Repr

/-- A fetched log window (`GitLog` as consumed by `WorktreeNode`):
ordered entries, a has-more flag, and an opaque continuation token
(`none` models `log.more === undefined`). -/
structure LogWindow where
  entries : List Entry
  hasMore : Bool
  continuation : Option Nat
deriving DecidableEq, Repr

/-- Modelled from the spec: `GitLog.count` is "number of entries
represented" (spec §3); the `GitLog` model class is not under `src/`. -/
def LogWindow.count (w : LogWindow) : Nat :=
  w.entries.length

/-- The external HistorySource capability: `fetch ref-limit` is
`git.getLog(repoPath, { ref, limit })` (returning `none` when no history
can be resolved) and `contFetch token pageSize` is the continuation fetch
behind `log.more(...)`, returning the next batch. -/
structure HistorySource where
  fetch : Nat → Option LogWindow
  contFetch : Nat → Nat → LogWindow

/-- The view configuration values the node reads. -/
structure ViewConfig where
  defaultItemLimit : Nat
  pageItemLimit : Nat

/-- The mutable state owned by one `WorktreeNode`: `_log`, `limit`, plus
observer-only instrumentation counters. -/
structure NodeState where
  log : Option LogWindow
  limit : Option Nat
  fetchCount : Nat
  contFetchCount : Nat
  changeCount : Nat
deriving DecidableEq, Repr

/-- A node as freshly constructed: `_log` unset, `limit` given by
`view.getNodeLastKnownLimit(this)`. -/
def NodeState.initial (lastKnownLimit : Option Nat) : NodeState :=
  { log := none, limit := lastKnownLimit, fetchCount := 0
    contFetchCount := 0, changeCount := 0 }

/-- Method `WorktreeNode.getLog` (sequential run to completion): if `_log` is
unset, fetch with `limit ?? defaultItemLimit`, store the result (possibly
`undefined`), and return it; otherwise return the cached window. -/
def getLog (src : HistorySource) (cfg : ViewConfig) (s : NodeState) :
    NodeState × Option LogWindow :=
  match s.log with
  | some l => (s, some l)
  | none =>
      let l := src.fetch (s.limit.getD cfg.defaultItemLimit)
      ({ s with log := l, fetchCount := s.fetchCount + 1 }, l)

/-- Method `WorktreeNode.refresh(reset?)`: when `reset` is true, clear `_log`. -/
def refresh (reset : Bool) (s : NodeState) : NodeState :=
  if reset then { s with log := none } else s

/-- The public `hasMore` getter: `this._log?.hasMore ?? true`. -/
def hasMoreProp (s : NodeState) : Bool :=
  (s.log.map LogWindow.hasMore).getD true

/-- Modelled from the spec: `GitLog.more(pageSize)` is not under `src/`;
per spec §4.1 it fetches the next batch via the window's continuation and
returns a window whose entries are the previous entries followed by the
newly fetched entries, with `hasMore`/`continuation` from the new fetch. -/
def extendWindow (w : LogWindow) (batch : LogWindow) : LogWindow :=
  { entries := w.entries ++ batch.entries
    hasMore := batch.hasMore
    continuation := batch.continuation }

/-- Method `WorktreeNode.loadMore(limit?)`: run `getLog`; return if the log is
absent or has no more; otherwise evaluate `log.more?.(limit ?? pageItemLimit)`
(`undefined` when the continuation is absent); return if the result is
reference-equal to the cached `_log`; otherwise install the new window,
set `limit` to `log?.count`, and emit `triggerChange(false)`. -/
def loadMore (src : HistorySource) (cfg : ViewConfig) (limitArg : Option Nat)
    (s : NodeState) : NodeState :=
  let p := getLog src cfg s
  match p.2 with
  | none => p.1
  | some w =>
      if w.hasMore = false then p.1
      else
        match w.continuation with
        | none =>
            if p.1.log = none then p.1
            else { p.1 with log := none, limit := none,
                            changeCount := p.1.changeCount + 1 }
        | some tok =>
            let batch := src.contFetch tok (limitArg.getD cfg.pageItemLimit)
            let newLog := extendWindow w batch
            let s2 := { p.1 with contFetchCount := p.1.contFetchCount + 1 }
            if s2.log = some newLog then s2
            else { s2 with log := some newLog, limit := some newLog.count,
                           changeCount := s2.changeCount + 1 }

/-- The worktree status consulted by `getChildren` (`worktree.getStatus()`
may resolve to `undefined`). -/
structure WtStatus where
  hasChanges : Bool
deriving DecidableEq, Repr

/-- A child node produced by `getChildren`: an informational message
(`MessageNode`), a commit (`CommitNode`), a date-boundary marker, a
"load more" affordance (`LoadMoreNode`, holding the node it references,
`undefined` when the child list was empty), or the synthetic uncommitted
changes node (`UncommittedFilesNode`). -/
inductive ChildNode where
  | message (text : String)
  | commit (e : Entry)
  | dateMarker (day : Nat)
  | loadMore (prev : Option ChildNode)
  | uncommitted

/-- Modelled from the spec: `insertDateMarkers` (in `views/nodes/helpers`,
not under `src/`) intersperses date-boundary marker nodes "wherever
consecutive entries cross a day boundary" (spec §4.3 step 2), preserving
entry order; marker insertion is a pure function of the timestamps.
Auxiliary recursion carrying the previous entry's day. -/
def insertDateMarkersAux (prevDay : Nat) : List Entry → List ChildNode
  | [] => []
  | e :: rest =>
      (if e.day ≠ prevDay then [ChildNode.dateMarker e.day] else [])
        ++ ChildNode.commit e :: insertDateMarkersAux e.day rest

/-- Modelled from the spec: see `insertDateMarkersAux`. -/
def insertDateMarkers : List Entry → List ChildNode
  | [] => []
  | e :: rest => ChildNode.commit e :: insertDateMarkersAux e.day rest

/-- Method `WorktreeNode.getChildren`: run `getLog`; on a null log return the
single `MessageNode`; otherwise build the commit nodes with date markers,
append one `LoadMoreNode` referencing the last built child when the window
has more, and finally splice the `UncommittedFilesNode` in front when the
worktree status reports changes. -/
def getChildren (src : HistorySource) (cfg : ViewConfig)
    (status : Option WtStatus) (s : NodeState) :
    NodeState × List ChildNode :=
  let p := getLog src cfg s
  match p.2 with
  | none => (p.1, [ChildNode.message "No commits could be found."])
  | some w =>
      let children := insertDateMarkers w.entries
      let children :=
        if w.hasMore then children ++ [ChildNode.loadMore children.getLast?]
        else children
      let children :=
        match status with
        | some st =>
            if st.hasChanges then ChildNode.uncommitted :: children
            else children
        | none => children
      (p.1, children)

/-!
## Interleaving model of concurrent `getLog` calls

`getLog`'s body has exactly one suspension point, the `await` on
`git.getLog(...)`. A task therefore runs in two atomic phases: the start
phase (read `_log`; on a hit finish with the cached window, on a miss
issue the fetch and suspend) and the resume phase (the awaited fetch has
resolved: assign `this._log` and finish). `refresh(reset=true)` is a
synchronous third action interleavable between phases.
-/

/-- The program counter of one in-flight `getLog` task. -/
inductive TaskPC where
  | ready
  | awaitingFetch (result : Option LogWindow)
  | done (ret : Option LogWindow)
deriving DecidableEq, Repr

/-- The shared node cell as seen by interleaved tasks (`_log`, `limit`,
and a count of HistorySource invocations). -/
structure ConcState where
  log : Option LogWindow
  limit : Option Nat
  fetchCount : Nat
deriving DecidableEq, Repr

/-- The start phase of `getLog`: read `_log`; on a cache hit return it
without fetching; on a miss invoke the source with
`limit ?? defaultItemLimit` and suspend awaiting the result. -/
def getLogStart (src : HistorySource) (cfg : ViewConfig)
    (cs : ConcState) (pc : TaskPC) : ConcState × TaskPC :=
  match pc with
  | .ready =>
      match cs.log with
      | some l => (cs, .done (some l))
      | none =>
          let r := src.fetch (cs.limit.getD cfg.defaultItemLimit)
          ({ cs with fetchCount := cs.fetchCount + 1 }, .awaitingFetch r)
  | pc => (cs, pc)

/-- The resume phase of `getLog`: the awaited fetch resolved with `r`;
execute `this._log = r` unconditionally and return `this._log`. -/
def getLogResume (cs : ConcState) (pc : TaskPC) : ConcState × TaskPC :=
  match pc with
  | .awaitingFetch r => ({ cs with log := r }, .done r)
  | pc => (cs, pc)

/-- Two tasks A and B against one node, with the shared cell. -/
structure World where
  cs : ConcState
  pcA : TaskPC
  pcB : TaskPC
deriving DecidableEq, Repr

/-- A scheduler event: run task A's or B's start or resume phase, or a
synchronous `refresh(reset=true)`. -/
inductive Event where
  | startA
  | startB
  | resumeA
  | resumeB
  | refreshReset
deriving DecidableEq, Repr

/-- One scheduler step. -/
def step (src : HistorySource) (cfg : ViewConfig) (w : World) :
    Event → World
  | .startA =>
      let p := getLogStart src cfg w.cs w.pcA
      { w with cs := p.1, pcA := p.2 }
  | .startB =>
      let p := getLogStart src cfg w.cs w.pcB
      { w with cs := p.1, pcB := p.2 }
  | .resumeA =>
      let p := getLogResume w.cs w.pcA
      { w with cs := p.1, pcA := p.2 }
  | .resumeB =>
      let p := getLogResume w.cs w.pcB
      { w with cs := p.1, pcB := p.2 }
  | .refreshReset =>
      { w with cs := { w.cs with log := none } }

/-- Run a schedule of events. -/
def run (src : HistorySource) (cfg : ViewConfig) (w : World)
    (sched : List Event) : World :=
  sched.foldl (step src cfg) w

/-- A node with an empty (never fetched) cache and both tasks ready. -/
def emptyWorld (lastKnownLimit : Option Nat) : World :=
  { cs := { log := none, limit := lastKnownLimit, fetchCount := 0 }
    pcA := .ready
    pcB := .ready }

/-!
## Derived observers and iteration
-/

/-- The entries currently cached by a node (`[]` when no window is loaded). -/
def cachedEntries (s : NodeState) : List Entry :=
  (s.log.map LogWindow.entries).getD []

/-- Iterate `loadMore` with a fixed explicit page size `n` times. -/
def iterExtend (src : HistorySource) (cfg : ViewConfig) (ps : Nat) :
    Nat → NodeState → NodeState
  | 0, s => s
  | n + 1, s => iterExtend src cfg ps n (loadMore src cfg (some ps) s)

/-- Decides whether a `loadMore` with page size `ps` from state `s` is a
successful extension: a window is loaded, it has more, a continuation is
present, and the fetched extension differs from the cached window. -/
def extendOk (src : HistorySource) (ps : Nat) (s : NodeState) : Bool :=
  match s.log with
  | none => false
  | some w =>
      w.hasMore &&
        match w.continuation with
        | none => false
        | some tok => decide (extendWindow w (src.contFetch tok ps) ≠ w)

/-- The batch of entries a `loadMore` with page size `ps` from state `s`
would fetch through the continuation (`[]` in the degenerate cases). -/
def stepBatch (src : HistorySource) (ps : Nat) (s : NodeState) : List Entry :=
  match s.log with
  | some w =>
      match w.continuation with
      | some tok => (src.contFetch tok ps).entries
      | none => []
  | none => []

/-- The batches fetched by `n` successive `loadMore` calls from `s`. -/
def batchTrace (src : HistorySource) (cfg : ViewConfig) (ps : Nat) :
    Nat → NodeState → List (List Entry)
  | 0, _ => []
  | n + 1, s =>
      stepBatch src ps s ::
        batchTrace src cfg ps n (loadMore src cfg (some ps) s)

/-- Whether a `getStatus` result reports pending local modifications
(`status?.hasChanges`, with `undefined` counting as no changes). -/
def hasChangesOf (st : Option WtStatus) : Bool :=
  (st.map WtStatus.hasChanges).getD false

/-- Whether a child node is a history-entry (commit) node. -/
def isCommitNode : ChildNode → Bool
  | .commit _ => true
  | _ => false

/-- Whether a child node is the "load more" affordance node. -/
def isLoadMoreNode : ChildNode → Bool
  | .loadMore _ => true
  | _ => false

/-- Whether a child node is the synthetic uncommitted-changes node. -/
def isUncommittedNode : ChildNode → Bool
  | .uncommitted => true
  | _ => false

/-- The history entries carried by the commit nodes of a child list, in
order. -/
def commitsOf (cs : List ChildNode) : List Entry :=
  cs.filterMap fun c =>
    match c with
    | .commit e => some e
    | _ => none

/-!
## Concrete fixtures for witnesses and counterexamples
-/

/-- Fixture entries across two days. -/
def entA : Entry := ⟨1, 10⟩

/-- Fixture entry, same day as `entA`. -/
def entB : Entry := ⟨2, 10⟩

/-- Fixture entry on a later day. -/
def entC : Entry := ⟨3, 11⟩

/-- Fixture source: the initial fetch returns `[entA]` with more
available through continuation token `1`; the continuation fetch for
token `1` returns `[entB, entC]` with nothing further. -/
def srcFix : HistorySource :=
  { fetch := fun _ => some ⟨[entA], true, some 1⟩
    contFetch := fun tok _ =>
      if tok = 1 then ⟨[entB, entC], false, none⟩ else ⟨[], false, none⟩ }

/-- Fixture source that resolves no history at all. -/
def srcNone : HistorySource :=
  { fetch := fun _ => none
    contFetch := fun _ _ => ⟨[], false, none⟩ }

/-- Fixture source whose continuation fetch yields an unchanged window:
the initial window is `[entA]` with `hasMore` and token `1`, and the
continuation fetch returns an empty batch with the same flag and token. -/
def srcSame : HistorySource :=
  { fetch := fun _ => some ⟨[entA], true, some 1⟩
    contFetch := fun _ _ => ⟨[], true, some 1⟩ }

/-- Fixture view configuration. -/
def cfgFix : ViewConfig := ⟨2, 3⟩

/-- Fixture node state holding a loaded window with more available. -/
def stLoaded : NodeState :=
  { log := some ⟨[entA], true, some 1⟩, limit := some 1
    fetchCount := 1, contFetchCount := 0, changeCount := 0 }

/-- Fixture node state holding an exhausted window (`hasMore` false). -/
def stDone : NodeState :=
  { log := some ⟨[entA, entB], false, none⟩, limit := some 2
    fetchCount := 1, contFetchCount := 0, changeCount := 0 }

/-- Fixture node state holding a window claiming more entries but with no
continuation. -/
def stNoCont : NodeState :=
  { log := some ⟨[entA], true, none⟩, limit := some 1
    fetchCount := 1, contFetchCount := 0, changeCount := 0 }

/-!
## Helper lemmas
-/

lemma getLog_cached (src : HistorySource) (cfg : ViewConfig) (s : NodeState)
    (w : LogWindow) (h : s.log = some w) : getLog src cfg s = (s, some w) := by
  unfold getLog
  rw [h]

lemma getLog_miss (src : HistorySource) (cfg : ViewConfig) (s : NodeState)
    (h : s.log = none) :
    getLog src cfg s =
      (let l := src.fetch (s.limit.getD cfg.defaultItemLimit)
       ({ s with log := l, fetchCount := s.fetchCount + 1 }, l)) := by
  unfold getLog
  rw [h]

lemma loadMore_of_noMore (src : HistorySource) (cfg : ViewConfig)
    (a : Option Nat) (s : NodeState) (w : LogWindow)
    (h : s.log = some w) (hm : w.hasMore = false) :
    loadMore src cfg a s = s := by
  simp only [loadMore, getLog_cached src cfg s w h]
  simp [hm]

lemma loadMore_of_noCont (src : HistorySource) (cfg : ViewConfig)
    (a : Option Nat) (s : NodeState) (w : LogWindow)
    (h : s.log = some w) (hm : w.hasMore = true) (hc : w.continuation = none) :
    loadMore src cfg a s =
      { s with log := none, limit := none,
               changeCount := s.changeCount + 1 } := by
  simp only [loadMore, getLog_cached src cfg s w h]
  simp [hm, hc, h]

lemma loadMore_of_cont (src : HistorySource) (cfg : ViewConfig)
    (a : Option Nat) (s : NodeState) (w : LogWindow) (tok : Nat)
    (h : s.log = some w) (hm : w.hasMore = true)
    (hc : w.continuation = some tok) :
    loadMore src cfg a s =
      if w = extendWindow w (src.contFetch tok (a.getD cfg.pageItemLimit)) then
        { s with contFetchCount := s.contFetchCount + 1 }
      else
        { s with
            log := some (extendWindow w
              (src.contFetch tok (a.getD cfg.pageItemLimit))),
            limit := some (extendWindow w
              (src.contFetch tok (a.getD cfg.pageItemLimit))).count,
            contFetchCount := s.contFetchCount + 1,
            changeCount := s.changeCount + 1 } := by
  simp only [loadMore, getLog_cached src cfg s w h]
  simp [hm, hc, h]

lemma extendOk_spec (src : HistorySource) (ps : Nat) (s : NodeState)
    (h : extendOk src ps s = true) :
    ∃ w tok, s.log = some w ∧ w.hasMore = true ∧ w.continuation = some tok ∧
      extendWindow w (src.contFetch tok ps) ≠ w := by
  unfold extendOk at h
  rcases hl : s.log with _ | w
  · rw [hl] at h
    simp at h
  · rw [hl] at h
    dsimp only at h
    rcases hc : w.continuation with _ | tok
    · rw [hc] at h
      simp at h
    · rw [hc] at h
      simp at h
      exact ⟨w, tok, rfl, h.1, hc, h.2⟩

lemma loadMore_extendOk (src : HistorySource) (cfg : ViewConfig) (ps : Nat)
    (s : NodeState) (h : extendOk src ps s = true) :
    cachedEntries (loadMore src cfg (some ps) s) =
      cachedEntries s ++ stepBatch src ps s := by
  obtain ⟨w, tok, hl, hm, hc, hne⟩ := extendOk_spec src ps s h
  rw [loadMore_of_cont src cfg (some ps) s w tok hl hm hc]
  simp only [Option.getD_some]
  rw [if_neg (Ne.symm hne)]
  simp [cachedEntries, stepBatch, hl, hc, extendWindow]

lemma iterExtend_trace (src : HistorySource) (cfg : ViewConfig) (ps : Nat) :
    ∀ (n : Nat) (s : NodeState),
      (∀ i : Nat, i < n → extendOk src ps (iterExtend src cfg ps i s) = true) →
      cachedEntries (iterExtend src cfg ps n s) =
        cachedEntries s ++ (batchTrace src cfg ps n s).flatten := by
  intro n
  induction n with
  | zero =>
      intro s _
      simp [iterExtend, batchTrace]
  | succ n ih =>
      intro s H
      have h0 : extendOk src ps s = true := H 0 (Nat.succ_pos n)
      have hstep := loadMore_extendOk src cfg ps s h0
      have ih' := ih (loadMore src cfg (some ps) s)
        (fun i hi => H (i + 1) (Nat.succ_lt_succ hi))
      calc cachedEntries (iterExtend src cfg ps (n + 1) s)
          = cachedEntries (iterExtend src cfg ps n
              (loadMore src cfg (some ps) s)) := rfl
        _ = cachedEntries (loadMore src cfg (some ps) s) ++
              (batchTrace src cfg ps n (loadMore src cfg (some ps) s)).flatten :=
            ih'
        _ = (cachedEntries s ++ stepBatch src ps s) ++
              (batchTrace src cfg ps n (loadMore src cfg (some ps) s)).flatten := by
            rw [hstep]
        _ = cachedEntries s ++ (batchTrace src cfg ps (n + 1) s).flatten := by
            simp [batchTrace, List.append_assoc]

lemma commitsOf_insertDateMarkersAux (d : Nat) (es : List Entry) :
    commitsOf (insertDateMarkersAux d es) = es := by
  induction es generalizing d with
  | nil => rfl
  | cons e rest ih =>
      simp only [insertDateMarkersAux]
      split
      · simpa [commitsOf] using ih e.day
      · simpa [commitsOf] using ih e.day

lemma commitsOf_append (l₁ l₂ : List ChildNode) :
    commitsOf (l₁ ++ l₂) = commitsOf l₁ ++ commitsOf l₂ := by
  simp [commitsOf]

lemma commitsOf_insertDateMarkers (es : List Entry) :
    commitsOf (insertDateMarkers es) = es := by
  cases es with
  | nil => rfl
  | cons e rest =>
      simpa [insertDateMarkers, commitsOf] using
        commitsOf_insertDateMarkersAux e.day rest

lemma getLast?_commit_insertDateMarkersAux (d : Nat) (e : Entry)
    (es : List Entry) :
    (ChildNode.commit e :: insertDateMarkersAux d es).getLast? =
      ((e :: es).getLast?).map ChildNode.commit := by
  induction es generalizing d e with
  | nil => rfl
  | cons e' rest ih =>
      simp only [insertDateMarkersAux]
      split
      · simp only [List.singleton_append, List.getLast?_cons_cons]
        rw [ih e'.day e']
      · simp only [List.nil_append, List.getLast?_cons_cons]
        rw [ih e'.day e']

lemma getLast?_insertDateMarkers (es : List Entry) :
    (insertDateMarkers es).getLast? = es.getLast?.map ChildNode.commit := by
  cases es with
  | nil => rfl
  | cons e rest =>
      simpa [insertDateMarkers] using
        getLast?_commit_insertDateMarkersAux e.day e rest

lemma countP_insertDateMarkersAux (p : ChildNode → Bool)
    (hm : ∀ d, p (ChildNode.dateMarker d) = false)
    (hc : ∀ e, p (ChildNode.commit e) = false)
    (d : Nat) (es : List Entry) :
    (insertDateMarkersAux d es).countP p = 0 := by
  induction es generalizing d with
  | nil => rfl
  | cons e rest ih =>
      simp only [insertDateMarkersAux]
      split
      · simp [List.countP_cons, hm, hc, ih e.day]
      · simp [List.countP_cons, hc, ih e.day]

lemma countP_insertDateMarkers (p : ChildNode → Bool)
    (hm : ∀ d, p (ChildNode.dateMarker d) = false)
    (hc : ∀ e, p (ChildNode.commit e) = false)
    (es : List Entry) :
    (insertDateMarkers es).countP p = 0 := by
  cases es with
  | nil => rfl
  | cons e rest =>
      simp [insertDateMarkers, List.countP_cons, hc,
            countP_insertDateMarkersAux p hm hc e.day rest]

lemma getChildren_null (src : HistorySource) (cfg : ViewConfig)
    (st : Option WtStatus) (s : NodeState) (h : s.log = none)
    (hf : src.fetch (s.limit.getD cfg.defaultItemLimit) = none) :
    getChildren src cfg st s =
      ({ s with log := none, fetchCount := s.fetchCount + 1 },
       [ChildNode.message "No commits could be found."]) := by
  simp only [getChildren, getLog_miss src cfg s h]
  simp [hf]

lemma getChildren_loaded (src : HistorySource) (cfg : ViewConfig)
    (st : Option WtStatus) (s : NodeState) (w : LogWindow)
    (h : s.log = some w) :
    getChildren src cfg st s =
      (s, (if hasChangesOf st then [ChildNode.uncommitted] else []) ++
          insertDateMarkers w.entries ++
          (if w.hasMore then
             [ChildNode.loadMore (insertDateMarkers w.entries).getLast?]
           else [])) := by
  simp only [getChildren, getLog_cached src cfg s w h]
  cases st with
  | none =>
      by_cases hmr : w.hasMore <;> simp [hasChangesOf, hmr]
  | some stv =>
      by_cases hch : stv.hasChanges <;> by_cases hmr : w.hasMore <;>
        simp [hasChangesOf, hch, hmr]

/-!
## Claim theorems
-/

/-- C4: for every node whose loaded window has `hasMore` false, `loadMore`
is a true no-op — the state is returned entirely unchanged (so no initial
or continuation fetch is issued, the cached entries do not change, and no
structural-change notification is emitted), and repeated calls after that
point never change the state either. -/
theorem loadMore_exhausted_noop (src : HistorySource) (cfg : ViewConfig)
    (a : Option Nat) (ps : Nat) (s : NodeState) (w : LogWindow)
    (hlog : s.log = some w) (hmore : w.hasMore = false) :
    loadMore src cfg a s = s ∧ ∀ n : Nat, iterExtend src cfg ps n s = s := by
  have h1 : ∀ b : Option Nat, loadMore src cfg b s = s := fun b =>
    loadMore_of_noMore src cfg b s w hlog hmore
  refine ⟨h1 a, ?_⟩
  intro n
  induction n with
  | zero => rfl
  | succ n ih =>
      show iterExtend src cfg ps n (loadMore src cfg (some ps) s) = s
      rw [h1 (some ps)]
      exact ih

/-- C4 witness: instantiated on the exhausted fixture state. -/
theorem loadMore_exhausted_noop_witness :
    loadMore srcFix cfgFix none stDone = stDone ∧
      ∀ n : Nat, iterExtend srcFix cfgFix 3 n stDone = stDone :=
  loadMore_exhausted_noop srcFix cfgFix none 3 stDone
    ⟨[entA, entB], false, none⟩ rfl rfl

/-- C5: when the HistorySource resolves no history (the fetch returns
null), `getChildren` returns exactly one node — the informational
message placeholder — and that node is not a history-entry node. -/
theorem getChildren_no_history_placeholder (src : HistorySource)
    (cfg : ViewConfig) (st : Option WtStatus) (s : NodeState)
    (hlog : s.log = none)
    (hfetch : src.fetch (s.limit.getD cfg.defaultItemLimit) = none) :
    (getChildren src cfg st s).2 =
      [ChildNode.message "No commits could be found."] ∧
    (getChildren src cfg st s).2.length = 1 ∧
    ∀ c ∈ (getChildren src cfg st s).2, isCommitNode c = false := by
  rw [getChildren_null src cfg st s hlog hfetch]
  refine ⟨rfl, rfl, ?_⟩
  intro c hc
  rw [List.mem_singleton] at hc
  rw [hc]
  rfl

/-- C5 witness: instantiated on the unavailable-history fixture source. -/
theorem getChildren_no_history_placeholder_witness :
    (getChildren srcNone cfgFix none (NodeState.initial none)).2 =
      [ChildNode.message "No commits could be found."] ∧
    (getChildren srcNone cfgFix none (NodeState.initial none)).2.length = 1 ∧
    ∀ c ∈ (getChildren srcNone cfgFix none (NodeState.initial none)).2,
      isCommitNode c = false :=
  getChildren_no_history_placeholder srcNone cfgFix none
    (NodeState.initial none) rfl rfl

/-- C7: when the continuation fetch yields a window equal to the one
already cached, `loadMore` is treated as a no-op — the cached window is
not replaced, `limit` is not updated, and no structural-change
notification is emitted. -/
theorem loadMore_same_window_noop (src : HistorySource) (cfg : ViewConfig)
    (a : Option Nat) (s : NodeState) (w : LogWindow) (tok : Nat)
    (hlog : s.log = some w) (hmore : w.hasMore = true)
    (hcont : w.continuation = some tok)
    (hsame : extendWindow w (src.contFetch tok (a.getD cfg.pageItemLimit)) = w) :
    (loadMore src cfg a s).log = s.log ∧
    (loadMore src cfg a s).limit = s.limit ∧
    (loadMore src cfg a s).changeCount = s.changeCount := by
  rw [loadMore_of_cont src cfg a s w tok hlog hmore hcont,
      if_pos hsame.symm]
  exact ⟨rfl, rfl, rfl⟩

/-- C7 witness: instantiated on the degenerate-continuation fixture. -/
theorem loadMore_same_window_noop_witness :
    (loadMore srcSame cfgFix none stLoaded).log = stLoaded.log ∧
    (loadMore srcSame cfgFix none stLoaded).limit = stLoaded.limit ∧
    (loadMore srcSame cfgFix none stLoaded).changeCount =
      stLoaded.changeCount :=
  loadMore_same_window_noop srcSame cfgFix none stLoaded
    ⟨[entA], true, some 1⟩ 1 rfl rfl rfl (by decide)

/-- C9: the public `hasMore` reports true whenever no window is loaded
(including right after `refresh(reset=true)`), and reports the loaded
window's own flag otherwise. -/
theorem hasMore_defaults_true :
    (∀ s : NodeState, s.log = none → hasMoreProp s = true) ∧
    (∀ s : NodeState, hasMoreProp (refresh true s) = true) ∧
    (∀ (s : NodeState) (w : LogWindow), s.log = some w →
       hasMoreProp s = w.hasMore) := by
  refine ⟨?_, ?_, ?_⟩
  · intro s h
    simp [hasMoreProp, h]
  · intro s
    simp [hasMoreProp, refresh]
  · intro s w h
    simp [hasMoreProp, h]

/-- C9 witness: instantiated on empty, reset and loaded fixture states. -/
theorem hasMore_defaults_true_witness :
    hasMoreProp (NodeState.initial none) = true ∧
    hasMoreProp (refresh true stLoaded) = true ∧
    hasMoreProp stDone = false :=
  ⟨hasMore_defaults_true.1 (NodeState.initial none) rfl,
   hasMore_defaults_true.2.1 stLoaded,
   hasMore_defaults_true.2.2 stDone ⟨[entA, entB], false, none⟩ rfl⟩

/-- C10: when the loaded window reports `hasMore` true but exposes no
continuation, `loadMore` replaces the cached window with `undefined`,
resets `limit` to `undefined`, still emits a structural-change
notification, and issues no fetch of either kind. -/
theorem loadMore_missing_continuation_clears (src : HistorySource)
    (cfg : ViewConfig) (a : Option Nat) (s : NodeState) (w : LogWindow)
    (hlog : s.log = some w) (hmore : w.hasMore = true)
    (hcont : w.continuation = none) :
    (loadMore src cfg a s).log = none ∧
    (loadMore src cfg a s).limit = none ∧
    (loadMore src cfg a s).changeCount = s.changeCount + 1 ∧
    (loadMore src cfg a s).contFetchCount = s.contFetchCount ∧
    (loadMore src cfg a s).fetchCount = s.fetchCount := by
  rw [loadMore_of_noCont src cfg a s w hlog hmore hcont]
  exact ⟨rfl, rfl, rfl, rfl, rfl⟩

/-- C10 witness: instantiated on the no-continuation fixture state. -/
theorem loadMore_missing_continuation_clears_witness :
    (loadMore srcFix cfgFix none stNoCont).log = none ∧
    (loadMore srcFix cfgFix none stNoCont).limit = none ∧
    (loadMore srcFix cfgFix none stNoCont).changeCount =
      stNoCont.changeCount + 1 ∧
    (loadMore srcFix cfgFix none stNoCont).contFetchCount =
      stNoCont.contFetchCount ∧
    (loadMore srcFix cfgFix none stNoCont).fetchCount =
      stNoCont.fetchCount :=
  loadMore_missing_continuation_clears srcFix cfgFix none stNoCont
    ⟨[entA], true, none⟩ rfl rfl rfl

/-- C3: a successful `loadMore` replaces the cached window by one whose
entries are the previous entries followed by the newly fetched batch, in
order, with `hasMore` and continuation taken from the new fetch; and
after `n` successful extends the cached entries are the original entries
followed by the fetched batches in order, so their count is the original
count plus the sum of each batch's reported count. -/
theorem loadMore_appends_batches (src : HistorySource) (cfg : ViewConfig)
    (a : Option Nat) (ps : Nat) (s : NodeState) (w : LogWindow) (tok : Nat)
    (hlog : s.log = some w) (hmore : w.hasMore = true)
    (hcont : w.continuation = some tok)
    (hnew : extendWindow w (src.contFetch tok (a.getD cfg.pageItemLimit)) ≠ w) :
    (loadMore src cfg a s).log =
      some { entries := w.entries ++
               (src.contFetch tok (a.getD cfg.pageItemLimit)).entries,
             hasMore := (src.contFetch tok (a.getD cfg.pageItemLimit)).hasMore,
             continuation :=
               (src.contFetch tok (a.getD cfg.pageItemLimit)).continuation } ∧
    (∀ n : Nat,
       (∀ i : Nat, i < n →
          extendOk src ps (iterExtend src cfg ps i s) = true) →
       cachedEntries (iterExtend src cfg ps n s) =
         cachedEntries s ++ (batchTrace src cfg ps n s).flatten ∧
       (cachedEntries (iterExtend src cfg ps n s)).length =
         (cachedEntries s).length +
           ((batchTrace src cfg ps n s).map List.length).sum) := by
  constructor
  · rw [loadMore_of_cont src cfg a s w tok hlog hmore hcont,
        if_neg (Ne.symm hnew)]
    rfl
  · intro n H
    have h := iterExtend_trace src cfg ps n s H
    refine ⟨h, ?_⟩
    rw [h]
    simp [List.length_flatten]

/-- C3 witness: one successful extend on the fixture source appends the
two-entry batch; the trace equations hold for a one-step run. -/
theorem loadMore_appends_batches_witness :
    (loadMore srcFix cfgFix (some 3) stLoaded).log =
      some ⟨[entA, entB, entC], false, none⟩ ∧
    (cachedEntries (iterExtend srcFix cfgFix 3 1 stLoaded) =
       cachedEntries stLoaded ++
         (batchTrace srcFix cfgFix 3 1 stLoaded).flatten ∧
     (cachedEntries (iterExtend srcFix cfgFix 3 1 stLoaded)).length =
       (cachedEntries stLoaded).length +
         ((batchTrace srcFix cfgFix 3 1 stLoaded).map List.length).sum) := by
  have h := loadMore_appends_batches srcFix cfgFix (some 3) 3 stLoaded
    ⟨[entA], true, some 1⟩ 1 rfl rfl rfl (by decide)
  exact ⟨h.1, h.2 1 (fun i hi => by
    have h0 : i = 0 := Nat.lt_one_iff.mp hi
    rw [h0]
    decide)⟩

/-- C6: for every loaded window, the children are exactly an
uncommitted-changes node (present iff the status reports changes),
followed by the date-marker-interspersed commit nodes in window order,
followed by a "load more" node (present iff the window has more)
referencing the commit node of the window's last entry; the commit nodes
carry exactly the window's entries in order, and the load-more and
uncommitted nodes each occur exactly the stated number of times, the
load-more node last. -/
theorem getChildren_loaded_shape (src : HistorySource) (cfg : ViewConfig)
    (st : Option WtStatus) (s : NodeState) (w : LogWindow)
    (hlog : s.log = some w) :
    (getChildren src cfg st s).2 =
      (if hasChangesOf st then [ChildNode.uncommitted] else []) ++
        insertDateMarkers w.entries ++
        (if w.hasMore then
           [ChildNode.loadMore (w.entries.getLast?.map ChildNode.commit)]
         else []) ∧
    commitsOf (getChildren src cfg st s).2 = w.entries ∧
    (getChildren src cfg st s).2.countP isLoadMoreNode =
      (if w.hasMore then 1 else 0) ∧
    (getChildren src cfg st s).2.countP isUncommittedNode =
      (if hasChangesOf st then 1 else 0) ∧
    (w.hasMore = true →
       (getChildren src cfg st s).2.getLast? =
         some (ChildNode.loadMore (w.entries.getLast?.map ChildNode.commit))) := by
  have hshape := getChildren_loaded src cfg st s w hlog
  have hlast := getLast?_insertDateMarkers w.entries
  rw [hshape]
  dsimp only
  rw [hlast]
  refine ⟨rfl, ?_, ?_, ?_, ?_⟩
  · rw [commitsOf_append, commitsOf_append, commitsOf_insertDateMarkers]
    cases hch : hasChangesOf st <;> cases hmr : w.hasMore <;>
      simp [commitsOf]
  · rw [List.countP_append, List.countP_append,
        countP_insertDateMarkers isLoadMoreNode (fun _ => rfl) (fun _ => rfl)]
    cases hch : hasChangesOf st <;> cases hmr : w.hasMore <;>
      simp [isLoadMoreNode, List.countP_cons]
  · rw [List.countP_append, List.countP_append,
        countP_insertDateMarkers isUncommittedNode (fun _ => rfl) (fun _ => rfl)]
    cases hch : hasChangesOf st <;> cases hmr : w.hasMore <;>
      simp [isUncommittedNode, List.countP_cons]
  · intro hmr
    rw [hmr]
    simp only [if_true]
    rw [List.append_assoc, List.getLast?_append_of_ne_nil]
    · rw [List.getLast?_append_of_ne_nil]
      · rfl
      · simp
    · simp

/-- C6 witness: a one-entry window with more available and pending
changes yields exactly uncommitted node, commit node, load-more node in
that order, the load-more node referencing the commit node. -/
theorem getChildren_loaded_shape_witness :
    (getChildren srcFix cfgFix (some ⟨true⟩) stLoaded).2 =
      [ChildNode.uncommitted, ChildNode.commit entA,
       ChildNode.loadMore (some (ChildNode.commit entA))] ∧
    commitsOf (getChildren srcFix cfgFix (some ⟨true⟩) stLoaded).2 =
      [entA] ∧
    (getChildren srcFix cfgFix (some ⟨true⟩) stLoaded).2.countP
      isLoadMoreNode = 1 ∧
    (getChildren srcFix cfgFix (some ⟨true⟩) stLoaded).2.countP
      isUncommittedNode = 1 ∧
    (getChildren srcFix cfgFix (some ⟨true⟩) stLoaded).2.getLast? =
      some (ChildNode.loadMore (some (ChildNode.commit entA))) := by
  have h := getChildren_loaded_shape srcFix cfgFix (some ⟨true⟩) stLoaded
    ⟨[entA], true, some 1⟩ rfl
  exact ⟨h.1, h.2.1, h.2.2.1, h.2.2.2.1, h.2.2.2.2 rfl⟩

/-- C8: the initial load invokes the source with
`limit ?? defaultItemLimit` and counts one initial fetch; a successful
`loadMore` sets `limit` to the new window's total count and emits exactly
one structural-change notification without issuing a fresh initial
fetch. -/
theorem initial_limit_and_loadMore_signal (src : HistorySource)
    (cfg : ViewConfig) :
    (∀ s : NodeState, s.log = none →
       (getLog src cfg s).2 =
         src.fetch (s.limit.getD cfg.defaultItemLimit) ∧
       (getLog src cfg s).1.fetchCount = s.fetchCount + 1) ∧
    (∀ (a : Option Nat) (s : NodeState) (w : LogWindow) (tok : Nat),
       s.log = some w → w.hasMore = true → w.continuation = some tok →
       extendWindow w (src.contFetch tok (a.getD cfg.pageItemLimit)) ≠ w →
       (loadMore src cfg a s).limit =
         some (extendWindow w
           (src.contFetch tok (a.getD cfg.pageItemLimit))).count ∧
       (loadMore src cfg a s).changeCount = s.changeCount + 1 ∧
       (loadMore src cfg a s).fetchCount = s.fetchCount) := by
  constructor
  · intro s h
    rw [getLog_miss src cfg s h]
    exact ⟨rfl, rfl⟩
  · intro a s w tok hlog hmore hcont hnew
    rw [loadMore_of_cont src cfg a s w tok hlog hmore hcont,
        if_neg (Ne.symm hnew)]
    exact ⟨rfl, rfl, rfl⟩

/-- C8 witness: instantiated on the fixture source, for an initial load
with a remembered limit of 5 and one successful extend. -/
theorem initial_limit_and_loadMore_signal_witness :
    ((getLog srcFix cfgFix (NodeState.initial (some 5))).2 =
       srcFix.fetch 5 ∧
     (getLog srcFix cfgFix (NodeState.initial (some 5))).1.fetchCount = 1) ∧
    ((loadMore srcFix cfgFix (some 3) stLoaded).limit = some 3 ∧
     (loadMore srcFix cfgFix (some 3) stLoaded).changeCount = 1 ∧
     (loadMore srcFix cfgFix (some 3) stLoaded).fetchCount = 1) := by
  have h := initial_limit_and_loadMore_signal srcFix cfgFix
  exact ⟨h.1 (NodeState.initial (some 5)) rfl,
         h.2 (some 3) stLoaded ⟨[entA], true, some 1⟩ 1 rfl rfl rfl
           (by decide)⟩

/-- C1 counterexample: two `getLog` calls that both start while the cache
is empty issue two HistorySource fetches in the interleaving where both
check the cache before either fetch resolves — not exactly one. -/
theorem concurrent_getLog_single_flight_cex :
    (run srcFix cfgFix (emptyWorld none)
        [Event.startA, Event.startB, Event.resumeA,
         Event.resumeB]).cs.fetchCount = 2 ∧
    ¬ (run srcFix cfgFix (emptyWorld none)
        [Event.startA, Event.startB, Event.resumeA,
         Event.resumeB]).cs.fetchCount = 1 :=
  ⟨rfl, by decide⟩

/-- C1 (amended): for every source and configuration, two concurrent
`getLog` calls that both start while the cache is empty each invoke the
HistorySource — two fetches, no single-flight attachment — and both
return the fetched result, which is also what ends up cached. -/
theorem concurrent_getLog_both_fetch (src : HistorySource)
    (cfg : ViewConfig) (lim : Option Nat) :
    (run src cfg (emptyWorld lim)
        [Event.startA, Event.startB, Event.resumeA,
         Event.resumeB]).cs.fetchCount = 2 ∧
    (run src cfg (emptyWorld lim)
        [Event.startA, Event.startB, Event.resumeA,
         Event.resumeB]).cs.log =
      src.fetch (lim.getD cfg.defaultItemLimit) ∧
    (run src cfg (emptyWorld lim)
        [Event.startA, Event.startB, Event.resumeA,
         Event.resumeB]).pcA =
      TaskPC.done (src.fetch (lim.getD cfg.defaultItemLimit)) ∧
    (run src cfg (emptyWorld lim)
        [Event.startA, Event.startB, Event.resumeA,
         Event.resumeB]).pcB =
      TaskPC.done (src.fetch (lim.getD cfg.defaultItemLimit)) :=
  ⟨rfl, rfl, rfl, rfl⟩

/-- C2 counterexample: with a fetch in flight, `refresh(reset=true)`
clears the cache, but when the fetch resolves its result is committed
anyway — the cache holds the stale window, and the next `getLog` sees the
committed stale window and issues no fresh fetch. -/
theorem refresh_version_check_cex :
    (run srcFix cfgFix (emptyWorld none)
        [Event.startA, Event.refreshReset, Event.resumeA]).cs.log =
      some ⟨[entA], true, some 1⟩ ∧
    ¬ (run srcFix cfgFix (emptyWorld none)
        [Event.startA, Event.refreshReset, Event.resumeA]).cs.log = none ∧
    (run srcFix cfgFix (emptyWorld none)
        [Event.startA, Event.refreshReset, Event.resumeA,
         Event.startB]).cs.fetchCount = 1 :=
  ⟨rfl, by decide, rfl⟩

/-- C2 (amended): `refresh(reset=true)` synchronously forces the cache to
empty; but a `Loading` operation in flight when the reset happened
commits its result to the cache unconditionally when it resolves — there
is no commit-time version check. -/
theorem refresh_clears_but_inflight_commits (src : HistorySource)
    (cfg : ViewConfig) (s : NodeState) (cs : ConcState)
    (r : Option LogWindow) (pcB : TaskPC) :
    (refresh true s).log = none ∧
    (run src cfg ⟨cs, TaskPC.awaitingFetch r, pcB⟩
        [Event.refreshReset, Event.resumeA]).cs.log = r :=
  ⟨rfl, rfl⟩

end Worktree
